import Mathlib

/-!
# Verification of the HTTP throttling core

Shallow embedding of the throttling core of the `EXT-n8n-httpThrottled`
repository, translated from:

* `src/nodes/HttpRequest/throttling.ts` (header normalisation, wait-time
  resolution, jitter),
* `src/nodes/HttpRequest/throttle-wrapper.ts` (`throttledCall` retry loop),
* `src/nodes/HttpRequest/HttpRequestThrottled.node.ts` (`fallbackExecute`
  retry loop).

Modelling conventions:

* JavaScript numbers are modelled as `Int` (the code only ever handles
  integral millisecond values on these paths); the jitter function, which
  genuinely works with fractional randomness, is modelled over `ℚ`.
* The implicit global clock `Date.now()` is an explicit parameter `now`
  (milliseconds since the epoch).
* `Date.parse` is an explicit parameter `dateParse : String → Option Int`
  (`none` models `NaN`); the code never inspects the date string itself,
  it only branches on whether `Date.parse` succeeded.
* `Math.random()` draws are an explicit stream `rand : ℕ → ℚ` of values
  in `[0, 1]`.
* A JavaScript object used as a string-keyed record is an association
  list in insertion order with unique keys; property assignment
  (`out[k] = v`) replaces the value in place when the key exists and
  appends otherwise, matching JS object semantics.
* `String.prototype.toLowerCase` is modelled on its ASCII fragment
  (the only fragment relevant to the recognised header names).
-/

/-- ASCII lower-casing of one character, the relevant fragment of
JavaScript `toLowerCase`. -/
def lowerChar (c : Char) : Char :=
  if 65 ≤ c.toNat ∧ c.toNat ≤ 90 then Char.ofNat (c.toNat + 32) else c

/-- ASCII lower-casing of a string (`k.toLowerCase()` in the source). -/
def toLowerStr (s : String) : String :=
  ⟨s.data.map lowerChar⟩

/-- A raw header value as it can arrive at `normalizeHeaders`: a single
string, a repeated header (array of strings), or `null`/`undefined`. -/
inductive HeaderValue where
  | str (s : String)
  | arr (xs : List String)
  | null
deriving DecidableEq, Repr

/-- Raw header map (`Record<string, unknown>` restricted to the shapes the
system receives). -/
abbrev RawHeaders := List (String × HeaderValue)

/-- Normalised header map (`Record<string, string>`): association list in
insertion order. -/
abbrev Record := List (String × String)

/-- Keys of a record, in order. -/
def recordKeys (m : Record) : List String :=
  m.map Prod.fst

/-- JS object property assignment `out[k] = v`: replace in place if the key
exists, append otherwise. -/
def recordSet (m : Record) (k v : String) : Record :=
  if k ∈ recordKeys m then
    m.map (fun p => if p.1 = k then (k, v) else p)
  else
    m ++ [(k, v)]

/-- JS object property read `m[k]` (returns `none` for `undefined`). -/
def recordGet (m : Record) (k : String) : Option String :=
  match m with
  | [] => none
  | p :: rest => if p.1 = k then some p.2 else recordGet rest k

/-- `String(v[0])` for an array header value (an empty array stringifies its
`undefined` first element). -/
def stringOfFirst (xs : List String) : String :=
  match xs with
  | [] => "undefined"
  | x :: _ => x

/-- `normalizeHeaders` from `throttling.ts`: lower-case every key, take the
first element of array values, skip `null`ish values. -/
def normalizeHeaders (raw : RawHeaders) : Record :=
  raw.foldl
    (fun out kv =>
      match kv.2 with
      | HeaderValue.null => out
      | HeaderValue.str s => recordSet out (toLowerStr kv.1) s
      | HeaderValue.arr xs => recordSet out (toLowerStr kv.1) (stringOfFirst xs))
    []

-- Sanity checks against the unit tests of `test/throttling.test.ts`.
example : normalizeHeaders [("Retry-After", .str "3")] = [("retry-after", "3")] := by decide
example : normalizeHeaders [("retry-after", .arr ["5", "10"])] = [("retry-after", "5")] := by decide
example : normalizeHeaders [("retry-after", .null)] = [] := by decide

/-- JavaScript `String.prototype.trim` (strip whitespace from both ends). -/
def jsTrim (s : String) : String :=
  ⟨((s.data.dropWhile Char.isWhitespace).reverse.dropWhile Char.isWhitespace).reverse⟩

/-- Is `c` one of the ASCII digits `0`–`9` (code points 48–57)? -/
def isDig (c : Char) : Bool :=
  48 ≤ c.toNat && c.toNat ≤ 57

/-- Leading decimal digits of a character list (`parseInt` consumes digits
until the first non-digit). -/
def takeDigits : List Char → List Char
  | [] => []
  | c :: cs => if isDig c then c :: takeDigits cs else []

/-- Value of a list of decimal digits. -/
def digitsToNat (ds : List Char) : Nat :=
  ds.foldl (fun a c => a * 10 + (c.toNat - 48)) 0

/-- Value of the leading digit run of `l` (`none` when there is none). -/
def parseIntDigits (l : List Char) : Option Int :=
  match takeDigits l with
  | [] => none
  | ds => some (digitsToNat ds : Int)

/-- JavaScript `parseInt(v, 10)`: skip leading whitespace, read an optional
sign and then leading decimal digits; `none` models `NaN` (no digits). -/
def parseIntBase10 (s : String) : Option Int :=
  match s.data.dropWhile Char.isWhitespace with
  | [] => none
  | c :: rest =>
    if c = '-' then (parseIntDigits rest).map (fun n => -n)
    else if c = '+' then parseIntDigits rest
    else parseIntDigits (c :: rest)

/-- The regex test `/^\d+$/.test(s)`: non-empty and all decimal digits. -/
def isDigitString (s : String) : Bool :=
  !s.data.isEmpty && s.data.all isDig

-- Sanity checks for the parseInt model.
example : parseIntBase10 "0garbage" = some 0 := by decide
example : parseIntBase10 "garbage" = none := by decide
example : parseIntBase10 "" = none := by decide
example : parseIntBase10 " -12x" = some (-12) := by decide

/-- `MAX_THROTTLE_WAIT_MS` from `throttling.ts`. -/
def MAX_THROTTLE_WAIT_MS : Int := 300000

/-- `firstPresentInt` from `throttling.ts`: first header among `keys` whose
value is truthy and parses to an integer; key order is the priority order.
(A present value that fails `parseInt` falls through to the next key.) -/
def firstPresentInt (h : Record) (keys : List String) : Option Int :=
  match keys with
  | [] => none
  | k :: rest =>
    match recordGet h k with
    | none => firstPresentInt h rest
    | some v =>
      if v = "" then firstPresentInt h rest
      else
        match parseIntBase10 v with
        | some n => some n
        | none => firstPresentInt h rest

/-- `parseRetryAfterToMs` from `throttling.ts`, with the clock and
`Date.parse` explicit. Integer strings are seconds; otherwise the value is
parsed as an HTTP date and clamped at `now`; `none` models the `null`
return for unrecognised formats. -/
def parseRetryAfterToMs (now : Int) (dateParse : String → Option Int)
    (v : String) : Option Int :=
  let trimmed := jsTrim v
  if isDigitString trimmed then
    match parseIntBase10 trimmed with
    | some sec => if 0 ≤ sec then some (sec * 1000) else none
    | none => none
  else
    match dateParse trimmed with
    | some dt => let delta := dt - now; some (if 0 < delta then delta else 0)
    | none => none

/-- The reset-header name variants, in priority order. -/
def resetKeys : List String :=
  ["x-ratelimit-reset", "x-hubspot-ratelimit-reset", "ratelimit-reset"]

/-- The remaining-quota header name variants, in priority order. -/
def remainingKeys : List String :=
  ["x-ratelimit-remaining", "x-hubspot-ratelimit-remaining", "ratelimit-remaining"]

/-- `parseResetToWaitMs` from `throttling.ts`: resolve a reset timestamp
(milliseconds if above `10^12`, else seconds) into a wait relative to
`now`, clamped at `0`; `none` when no reset header is present. -/
def parseResetToWaitMs (now : Int) (h : Record) : Option Int :=
  match firstPresentInt h resetKeys with
  | none => none
  | some reset =>
    let tsMs := if 1000000000000 < reset then reset else reset * 1000
    let delta := tsMs - now
    some (if 0 < delta then delta else 0)

/-- The local `cap` closure of `computeWaitMs`. -/
def cap (ms : Int) : Int :=
  min ms MAX_THROTTLE_WAIT_MS

/-- Rules 2–4 of `computeWaitMs` (the code after the `retry-after` block):
remaining-quota exhausted, reset timestamp alone, default fallback. -/
def computeWaitMsRest (now : Int) (h : Record) (defaultWaitMs : Int) : Int :=
  match firstPresentInt h remainingKeys with
  | some remaining =>
    if remaining ≤ 0 then
      match parseResetToWaitMs now h with
      | some resetMs => if 0 < resetMs then cap resetMs else cap defaultWaitMs
      | none => cap defaultWaitMs
    else
      match parseResetToWaitMs now h with
      | some resetMs => if 0 < resetMs then cap resetMs else cap defaultWaitMs
      | none => cap defaultWaitMs
  | none =>
    match parseResetToWaitMs now h with
    | some resetMs => if 0 < resetMs then cap resetMs else cap defaultWaitMs
    | none => cap defaultWaitMs

/-- `computeWaitMs` from `throttling.ts`: normalise the headers, then apply
rule 1 (`retry-after`, used only when it is present, truthy and resolves to
a strictly positive wait) and otherwise fall through to rules 2–4. -/
def computeWaitMs (now : Int) (dateParse : String → Option Int)
    (rawHeaders : RawHeaders) (defaultWaitMs : Int) : Int :=
  let h := normalizeHeaders rawHeaders
  match recordGet h "retry-after" with
  | some ra =>
    if ra = "" then computeWaitMsRest now h defaultWaitMs
    else
      match parseRetryAfterToMs now dateParse ra with
      | some ms => if 0 < ms then cap ms else computeWaitMsRest now h defaultWaitMs
      | none => computeWaitMsRest now h defaultWaitMs
  | none => computeWaitMsRest now h defaultWaitMs

-- Sanity checks mirroring the `computeWaitMs` unit tests (with `now = 0`
-- and a `Date.parse` that always fails, irrelevant for integer inputs).
example : computeWaitMs 0 (fun _ => none) [("Retry-After", .str "3")] 10000 = 3000 := by decide
example : computeWaitMs 0 (fun _ => none) [("X-RateLimit-Remaining", .str "0")] 10000 = 10000 := by decide
example : computeWaitMs 0 (fun _ => none) [] 10000 = 10000 := by decide
example : computeWaitMs 0 (fun _ => none) [("Retry-After", .str "999999")] 10000 = 300000 := by decide
example : computeWaitMs 0 (fun _ => none) [("X-RateLimit-Reset", .str "5")] 10000 = 5000 := by decide
example : computeWaitMs 0 (fun _ => none)
    [("X-RateLimit-Remaining", .str "0"), ("X-RateLimit-Reset", .str "5")] 10000 = 5000 := by decide
example : computeWaitMs 0 (fun _ => none)
    [("Retry-After", .str "3"), ("X-RateLimit-Reset", .str "60")] 10000 = 3000 := by decide

/-- `applyJitter` from `throttling.ts`, with the `Math.random()` draw
`rand ∈ [0, 1]` explicit; modelled over `ℚ`. -/
def applyJitter (baseMs jitterPct rand : ℚ) : ℚ :=
  let pct := max 0 (min 100 jitterPct)
  let variance := baseMs * (pct / 100)
  let jitter := (rand * 2 - 1) * variance
  max 0 (baseMs + jitter)

example : applyJitter 10000 0 (3/4) = 10000 := by norm_num [applyJitter]
example : applyJitter 0 50 (3/4) = 0 := by norm_num [applyJitter]

/-!
## The two retry drivers

The executor (`this.helpers.httpRequest` / the V3 helper) is modelled as a
stream `exec : ℕ → ExecResult` indexed by invocation count: invocation
`i` yields `exec i`.  A `Response` is the typed view the drivers read off
the response object (`statusCode`, `headers`, `body`); a transport-level
failure (the promise rejecting) is `ExecResult.transportError`.

Both loops terminate because the throttle-attempt counter grows strictly
on every retained iteration; the recursion is driven by the explicit
remaining-iteration bound that this counter enforces (`fuelOut` is proved
unreachable for sufficient fuel in the theorems below).
-/

/-- The typed view of an HTTP response used by the drivers. -/
structure Response where
  statusCode : Int
  headers : RawHeaders
  body : String
deriving DecidableEq, Repr

/-- Result of one executor invocation. -/
inductive ExecResult where
  | ok (r : Response)
  | transportError
deriving DecidableEq, Repr

/-- Terminal outcome of the `fallbackExecute` per-item retry loop. -/
inductive FallbackOutcome where
  | success (body : String)
  | errorItem (status : Int)
  | httpError (status : Int)
  | throttleExhausted (lastStatus : Int) (limit : Nat)
  | networkError
  | fuelOut
deriving DecidableEq, Repr

/-- One run of the `while (true)` retry loop of `fallbackExecute`
(`HttpRequestThrottled.node.ts`) for a single item, instrumented with the
number of executor invocations and the list of slept durations.

Arguments mirror the locals of the source: `codes` = `throttleCodes`,
`d` = `defaultWaitMs`, `jp` = `jitterPercent`, `maxTries` =
`maxThrottleTries`, `enabled` = `throttlingEnabled`, `cof` =
`this.continueOnFail()`; `calls` counts executor invocations so far and
`attempt` is `throttleAttempt`. -/
def fallbackLoop (codes : List String) (now : Int) (dateParse : String → Option Int)
    (rand : Nat → ℚ) (d : Int) (jp : ℚ) (maxTries : Nat) (enabled cof : Bool)
    (exec : Nat → ExecResult) :
    Nat → Nat → Nat → List ℚ → FallbackOutcome × Nat × List ℚ
  | 0, calls, _, sleeps => (FallbackOutcome.fuelOut, calls, sleeps)
  | fuel + 1, calls, attempt, sleeps =>
    match exec calls with
    | ExecResult.transportError => (FallbackOutcome.networkError, calls + 1, sleeps)
    | ExecResult.ok r =>
      if enabled ∧ toString r.statusCode ∈ codes then
        if maxTries ≤ attempt + 1 then
          (FallbackOutcome.throttleExhausted r.statusCode maxTries, calls + 1, sleeps)
        else
          let baseWait := computeWaitMs now dateParse r.headers d
          let wait := applyJitter (baseWait : ℚ) jp (rand calls)
          fallbackLoop codes now dateParse rand d jp maxTries enabled cof exec
            fuel (calls + 1) (attempt + 1) (sleeps ++ [wait])
      else if 400 ≤ r.statusCode then
        if cof then (FallbackOutcome.errorItem r.statusCode, calls + 1, sleeps)
        else (FallbackOutcome.httpError r.statusCode, calls + 1, sleeps)
      else
        (FallbackOutcome.success r.body, calls + 1, sleeps)

/-- Entry point of the fallback retry loop: fresh counters, enough fuel for
the `maxTries` throttled iterations the attempt counter admits. -/
def fallbackRun (codes : List String) (now : Int) (dateParse : String → Option Int)
    (rand : Nat → ℚ) (d : Int) (jp : ℚ) (maxTries : Nat) (enabled cof : Bool)
    (exec : Nat → ExecResult) : FallbackOutcome × Nat × List ℚ :=
  fallbackLoop codes now dateParse rand d jp maxTries enabled cof exec
    (maxTries + 1) 0 0 []

/-- Terminal outcome of `throttledCall` (`throttle-wrapper.ts`). The
non-throttle, status `≥ 400`, errors-not-ignored path re-issues the request
with the caller's original options and returns that second call raw
(`passthrough`). -/
inductive WrapOutcome where
  | fullResponse (r : Response)
  | bodyOnly (body : String)
  | passthrough (second : ExecResult)
  | throttleExhausted (lastStatus : Int) (limit : Nat)
  | networkError
  | fuelOut
deriving DecidableEq, Repr

/-- The `for (attempt = 0; attempt <= maxRetries; attempt++)` loop of
`throttledCall`, instrumented like `fallbackLoop`.  `wantFull` and
`wantIgnore` are `returnFullResponse === true` and
`ignoreHttpStatusErrors === true` on the caller's request options. -/
def throttledCallLoop (codes : List String) (now : Int) (dateParse : String → Option Int)
    (rand : Nat → ℚ) (d : Int) (jp : ℚ) (maxRetries : Nat) (wantFull wantIgnore : Bool)
    (exec : Nat → ExecResult) :
    Nat → Nat → Nat → List ℚ → WrapOutcome × Nat × List ℚ
  | 0, calls, _, sleeps => (WrapOutcome.fuelOut, calls, sleeps)
  | fuel + 1, calls, attempt, sleeps =>
    match exec calls with
    | ExecResult.transportError => (WrapOutcome.networkError, calls + 1, sleeps)
    | ExecResult.ok r =>
      if toString r.statusCode ∈ codes then
        if maxRetries ≤ attempt then
          (WrapOutcome.throttleExhausted r.statusCode maxRetries, calls + 1, sleeps)
        else
          let baseWait := computeWaitMs now dateParse r.headers d
          let wait := applyJitter (baseWait : ℚ) jp (rand calls)
          throttledCallLoop codes now dateParse rand d jp maxRetries wantFull wantIgnore exec
            fuel (calls + 1) (attempt + 1) (sleeps ++ [wait])
      else if ¬wantIgnore ∧ 400 ≤ r.statusCode then
        (WrapOutcome.passthrough (exec (calls + 1)), calls + 2, sleeps)
      else if ¬wantFull then
        (WrapOutcome.bodyOnly r.body, calls + 1, sleeps)
      else
        (WrapOutcome.fullResponse r, calls + 1, sleeps)

/-- Entry point of `throttledCall`: attempt `0`, enough fuel for the
`maxRetries + 1` loop iterations the `for` bound admits. -/
def throttledCallRun (codes : List String) (now : Int) (dateParse : String → Option Int)
    (rand : Nat → ℚ) (d : Int) (jp : ℚ) (maxRetries : Nat) (wantFull wantIgnore : Bool)
    (exec : Nat → ExecResult) : WrapOutcome × Nat × List ℚ :=
  throttledCallLoop codes now dateParse rand d jp maxRetries wantFull wantIgnore exec
    (maxRetries + 1) 0 0 []

/-!
## Lemmas: lower-casing
-/

theorem toNat_ofNat_of_lt {n : Nat} (h : n < 55296) : (Char.ofNat n).toNat = n := by
  have hv : n.isValidChar := Or.inl h
  rw [Char.ofNat, dif_pos hv]
  simp [Char.ofNatAux, Char.toNat, UInt32.toNat, BitVec.toNat_ofNatLt]

theorem lowerChar_idem (c : Char) : lowerChar (lowerChar c) = lowerChar c := by
  unfold lowerChar
  by_cases h : 65 ≤ c.toNat ∧ c.toNat ≤ 90
  · rw [if_pos h]
    have ht : (Char.ofNat (c.toNat + 32)).toNat = c.toNat + 32 :=
      toNat_ofNat_of_lt (by omega)
    rw [if_neg (by omega)]
  · rw [if_neg h, if_neg h]

theorem toLowerStr_idem (s : String) : toLowerStr (toLowerStr s) = toLowerStr s := by
  unfold toLowerStr
  simp [List.map_map, Function.comp_def, lowerChar_idem]

/-!
## Lemmas: records and `normalizeHeaders`
-/

theorem recordKeys_recordSet (m : Record) (k v : String) :
    recordKeys (recordSet m k v) =
      if k ∈ recordKeys m then recordKeys m else recordKeys m ++ [k] := by
  unfold recordSet
  by_cases h : k ∈ recordKeys m
  · rw [if_pos h, if_pos h]
    unfold recordKeys
    rw [List.map_map]
    apply List.map_congr_left
    intro p _
    by_cases hp : p.1 = k
    · simp [Function.comp_def, hp]
    · simp [Function.comp_def, hp]
  · rw [if_neg h, if_neg h]
    simp [recordKeys]

theorem recordSet_of_not_mem (m : Record) (k v : String) (h : k ∉ recordKeys m) :
    recordSet m k v = m ++ [(k, v)] := by
  unfold recordSet
  rw [if_neg h]

/-- Invariant maintained by `normalizeHeaders`: keys are unique and fixed
under lower-casing. -/
def GoodRec (m : Record) : Prop :=
  (recordKeys m).Nodup ∧ ∀ p ∈ m, toLowerStr p.1 = p.1

theorem goodRec_recordSet {m : Record} (hm : GoodRec m) {k : String}
    (hk : toLowerStr k = k) (v : String) : GoodRec (recordSet m k v) := by
  obtain ⟨hnd, hlow⟩ := hm
  constructor
  · rw [recordKeys_recordSet]
    by_cases h : k ∈ recordKeys m
    · rw [if_pos h]; exact hnd
    · rw [if_neg h]
      simp only [List.nodup_append, List.nodup_cons, List.nodup_nil]
      refine ⟨hnd, by simp, ?_⟩
      intro a ha
      simp only [List.mem_singleton]
      intro hak
      exact h (hak ▸ ha)
  · intro p hp
    unfold recordSet at hp
    by_cases h : k ∈ recordKeys m
    · rw [if_pos h] at hp
      obtain ⟨q, hq, hqe⟩ := List.mem_map.mp hp
      by_cases hq1 : q.1 = k
      · rw [if_pos hq1] at hqe
        rw [← hqe]
        exact hk
      · rw [if_neg hq1] at hqe
        exact hqe ▸ hlow q hq
    · rw [if_neg h] at hp
      rcases List.mem_append.mp hp with hp | hp
      · exact hlow p hp
      · rw [List.mem_singleton.mp hp]
        exact hk

theorem goodRec_foldl (raw : RawHeaders) :
    ∀ acc : Record, GoodRec acc →
      GoodRec (raw.foldl
        (fun out kv =>
          match kv.2 with
          | HeaderValue.null => out
          | HeaderValue.str s => recordSet out (toLowerStr kv.1) s
          | HeaderValue.arr xs => recordSet out (toLowerStr kv.1) (stringOfFirst xs)) acc) := by
  induction raw with
  | nil => intro acc h; exact h
  | cons kv rest ih =>
    intro acc h
    rw [List.foldl_cons]
    match hv : kv.2 with
    | HeaderValue.null => exact ih acc h
    | HeaderValue.str s =>
      exact ih _ (goodRec_recordSet h (toLowerStr_idem kv.1) s)
    | HeaderValue.arr xs =>
      exact ih _ (goodRec_recordSet h (toLowerStr_idem kv.1) (stringOfFirst xs))

theorem goodRec_normalizeHeaders (raw : RawHeaders) : GoodRec (normalizeHeaders raw) :=
  goodRec_foldl raw [] ⟨List.nodup_nil, by simp⟩

theorem foldl_recordSet_append (m : Record) :
    ∀ acc : Record, (recordKeys m).Nodup →
      (∀ p ∈ m, toLowerStr p.1 = p.1) →
      (∀ k ∈ recordKeys m, k ∉ recordKeys acc) →
      m.foldl (fun out p => recordSet out (toLowerStr p.1) p.2) acc = acc ++ m := by
  induction m with
  | nil => intro acc _ _ _; simp
  | cons p rest ih =>
    intro acc hnd hlow hdisj
    rw [List.foldl_cons]
    rw [hlow p (by simp)]
    rw [recordSet_of_not_mem acc p.1 p.2 (hdisj p.1 (by simp [recordKeys]))]
    have hnd' : (recordKeys rest).Nodup := by
      have : recordKeys (p :: rest) = p.1 :: recordKeys rest := rfl
      rw [this] at hnd
      exact hnd.of_cons
    have hhead : p.1 ∉ recordKeys rest := by
      have : recordKeys (p :: rest) = p.1 :: recordKeys rest := rfl
      rw [this] at hnd
      exact (List.nodup_cons.mp hnd).1
    rw [ih (acc ++ [(p.1, p.2)]) hnd' (fun q hq => hlow q (by simp [hq]))]
    · simp
    · intro k hk
      have hk' : k ∈ recordKeys (p :: rest) := by
        simp only [recordKeys, List.map_cons, List.mem_cons]
        exact Or.inr hk
      intro hmem
      unfold recordKeys at hmem
      rw [List.map_append, List.mem_append] at hmem
      rcases hmem with h | h
      · exact hdisj k hk' h
      · simp only [List.map_cons, List.map_nil, List.mem_singleton] at h
        exact hhead (h ▸ hk)

/-- Re-feeding a normalised map (a `Record<string, string>`) into
`normalizeHeaders` (every value is a plain string). -/
def injStr (m : Record) : RawHeaders :=
  m.map (fun p => (p.1, HeaderValue.str p.2))

theorem normalizeHeaders_idem (raw : RawHeaders) :
    normalizeHeaders (injStr (normalizeHeaders raw)) = normalizeHeaders raw := by
  obtain ⟨hnd, hlow⟩ := goodRec_normalizeHeaders raw
  unfold normalizeHeaders injStr
  rw [List.foldl_map]
  have : (normalizeHeaders raw).foldl (fun out p => recordSet out (toLowerStr p.1) p.2) [] =
      [] ++ normalizeHeaders raw :=
    foldl_recordSet_append (normalizeHeaders raw) [] hnd hlow (by simp [recordKeys])
  unfold normalizeHeaders at this
  exact this.trans (by simp)

/-!
## Lemmas: digit strings and `parseInt`
-/

theorem isDig_not_whitespace {c : Char} (h : isDig c = true) :
    Char.isWhitespace c = false := by
  simp only [isDig, Bool.and_eq_true, decide_eq_true_eq] at h
  simp only [Char.isWhitespace, Bool.or_eq_false_iff, decide_eq_false_iff_not]
  refine ⟨⟨⟨?_, ?_⟩, ?_⟩, ?_⟩ <;> rintro rfl <;> exact absurd h (by decide)

theorem isDig_ne_minus {c : Char} (h : isDig c = true) : c ≠ '-' := by
  simp only [isDig, Bool.and_eq_true, decide_eq_true_eq] at h
  rintro rfl
  exact absurd h (by decide)

theorem isDig_ne_plus {c : Char} (h : isDig c = true) : c ≠ '+' := by
  simp only [isDig, Bool.and_eq_true, decide_eq_true_eq] at h
  rintro rfl
  exact absurd h (by decide)

theorem dropWhile_eq_self_of {p : Char → Bool} {l : List Char}
    (h : ∀ c ∈ l, p c = false) : l.dropWhile p = l := by
  cases l with
  | nil => rfl
  | cons a l => rw [List.dropWhile_cons, h a (by simp)]; simp

theorem takeDigits_of_all {l : List Char} (h : ∀ c ∈ l, isDig c = true) :
    takeDigits l = l := by
  induction l with
  | nil => rfl
  | cons a l ih =>
    unfold takeDigits
    rw [if_pos (h a (by simp)), ih (fun c hc => h c (by simp [hc]))]

theorem jsTrim_of_digits {s : String} (h : isDigitString s = true) : jsTrim s = s := by
  simp only [isDigitString, Bool.and_eq_true, List.all_eq_true] at h
  obtain ⟨-, hall⟩ := h
  unfold jsTrim
  rw [dropWhile_eq_self_of (fun c hc => isDig_not_whitespace (hall c hc))]
  rw [dropWhile_eq_self_of (fun c hc =>
    isDig_not_whitespace (hall c (List.mem_reverse.mp hc)))]
  rw [List.reverse_reverse]

theorem parseIntDigits_of_all {l : List Char} (hne : l ≠ [])
    (h : ∀ c ∈ l, isDig c = true) :
    parseIntDigits l = some (digitsToNat l : Int) := by
  unfold parseIntDigits
  rw [takeDigits_of_all h]
  cases l with
  | nil => exact absurd rfl hne
  | cons a l => rfl

theorem parseIntBase10_of_digits {s : String} (h : isDigitString s = true) :
    parseIntBase10 s = some (digitsToNat s.data : Int) := by
  have h' := h
  simp only [isDigitString, Bool.and_eq_true, List.all_eq_true, Bool.not_eq_true'] at h'
  obtain ⟨hne, hall⟩ := h'
  cases hd : s.data with
  | nil => rw [hd] at hne; simp at hne
  | cons c cs =>
    have hcs : ∀ x ∈ c :: cs, isDig x = true := fun x hx => hall x (by rw [hd]; exact hx)
    have hc : isDig c = true := hcs c (by simp)
    unfold parseIntBase10
    rw [hd, dropWhile_eq_self_of (fun x hx => isDig_not_whitespace (hcs x hx))]
    show (if c = '-' then (parseIntDigits cs).map (fun n => -n)
      else if c = '+' then parseIntDigits cs
      else parseIntDigits (c :: cs)) = some (digitsToNat (c :: cs) : Int)
    rw [if_neg (isDig_ne_minus hc), if_neg (isDig_ne_plus hc),
      parseIntDigits_of_all (by simp) hcs]

theorem parseRetryAfterToMs_of_digits (now : Int) (dateParse : String → Option Int)
    {s : String} (h : isDigitString s = true) :
    parseRetryAfterToMs now dateParse s = some ((digitsToNat s.data : Int) * 1000) := by
  simp only [parseRetryAfterToMs, jsTrim_of_digits h, h, if_true,
    parseIntBase10_of_digits h, Int.natCast_nonneg, ite_true]

/-!
## Lemmas: `computeWaitMs`
-/

theorem cap_le_max (x : Int) : cap x ≤ MAX_THROTTLE_WAIT_MS :=
  min_le_right _ _

theorem cap_nonneg {x : Int} (h : 0 ≤ x) : 0 ≤ cap x :=
  le_min h (by norm_num [MAX_THROTTLE_WAIT_MS])

/-- Rule 1 of `computeWaitMs`: a present, truthy `retry-after` whose parsed
wait is strictly positive decides the result, whatever else is in the map. -/
theorem computeWaitMs_retryAfter_pos (now : Int) (dp : String → Option Int)
    (raw : RawHeaders) (D : Int) {ra : String} {m : Int}
    (hra : recordGet (normalizeHeaders raw) "retry-after" = some ra)
    (hne : ra ≠ "") (hparse : parseRetryAfterToMs now dp ra = some m) (hm : 0 < m) :
    computeWaitMs now dp raw D = cap m := by
  simp only [computeWaitMs, hra]
  rw [if_neg hne]
  simp only [hparse]
  rw [if_pos hm]

/-- Rule 1 falls through when `retry-after` is absent. -/
theorem computeWaitMs_no_retryAfter (now : Int) (dp : String → Option Int)
    (raw : RawHeaders) (D : Int)
    (hra : recordGet (normalizeHeaders raw) "retry-after" = none) :
    computeWaitMs now dp raw D = computeWaitMsRest now (normalizeHeaders raw) D := by
  simp only [computeWaitMs, hra]

/-- Rule 1 falls through when the parsed `retry-after` wait is `0`. -/
theorem computeWaitMs_retryAfter_zero (now : Int) (dp : String → Option Int)
    (raw : RawHeaders) (D : Int) {ra : String}
    (hra : recordGet (normalizeHeaders raw) "retry-after" = some ra)
    (hne : ra ≠ "") (hparse : parseRetryAfterToMs now dp ra = some 0) :
    computeWaitMs now dp raw D = computeWaitMsRest now (normalizeHeaders raw) D := by
  simp only [computeWaitMs, hra]
  rw [if_neg hne]
  simp only [hparse]
  rw [if_neg (by omega)]

/-- Rule 2 of `computeWaitMs`: remaining quota exhausted. -/
theorem computeWaitMsRest_remaining_exhausted (now : Int) (h : Record) (D : Int)
    {r : Int} (hrem : firstPresentInt h remainingKeys = some r) (hr : r ≤ 0) :
    computeWaitMsRest now h D =
      match parseResetToWaitMs now h with
      | some w => if 0 < w then cap w else cap D
      | none => cap D := by
  simp only [computeWaitMsRest, hrem]
  rw [if_pos hr]

/-- Whatever the remaining-quota rule decides, rules 2–4 always reduce to
"positive reset wait, else default" (the rule-2 body and the rule-3/4 body
of the source are the same expression). -/
theorem computeWaitMsRest_eq (now : Int) (h : Record) (D : Int) :
    computeWaitMsRest now h D =
      match parseResetToWaitMs now h with
      | some w => if 0 < w then cap w else cap D
      | none => cap D := by
  unfold computeWaitMsRest
  rcases hfp : firstPresentInt h remainingKeys with _ | r <;> simp only [hfp]
  rw [ite_self]

/-- Every result of rules 2–4 is the cap of the default or of a strictly
positive reset wait. -/
theorem computeWaitMsRest_cases (now : Int) (h : Record) (D : Int) :
    computeWaitMsRest now h D = cap D ∨
      ∃ w, 0 < w ∧ computeWaitMsRest now h D = cap w := by
  rw [computeWaitMsRest_eq]
  rcases hre : parseResetToWaitMs now h with _ | w <;> simp only [hre]
  · exact Or.inl trivial
  · by_cases hw : 0 < w
    · rw [if_pos hw]; exact Or.inr ⟨w, hw, rfl⟩
    · rw [if_neg hw]; exact Or.inl rfl

/-- Every result of `computeWaitMs` is the cap of the default or of a
strictly positive wait. -/
theorem computeWaitMs_cases (now : Int) (dp : String → Option Int)
    (raw : RawHeaders) (D : Int) :
    computeWaitMs now dp raw D = cap D ∨
      ∃ w, 0 < w ∧ computeWaitMs now dp raw D = cap w := by
  simp only [computeWaitMs]
  rcases hra : recordGet (normalizeHeaders raw) "retry-after" with _ | ra <;>
    simp only [hra]
  · exact computeWaitMsRest_cases now _ D
  · by_cases hne : ra = ""
    · rw [if_pos hne]
      exact computeWaitMsRest_cases now _ D
    · rw [if_neg hne]
      rcases hp : parseRetryAfterToMs now dp ra with _ | m <;> simp only [hp]
      · exact computeWaitMsRest_cases now _ D
      · by_cases hm : 0 < m
        · rw [if_pos hm]
          exact Or.inr ⟨m, hm, rfl⟩
        · rw [if_neg hm]
          exact computeWaitMsRest_cases now _ D

theorem toLowerStr_retry_after : toLowerStr "retry-after" = "retry-after" := by decide

theorem normalizeHeaders_single_str (k v : String) :
    normalizeHeaders [(k, HeaderValue.str v)] = [(toLowerStr k, v)] := by
  simp [normalizeHeaders, recordSet, recordKeys]

theorem recordGet_cons_self (k v : String) (rest : Record) :
    recordGet ((k, v) :: rest) k = some v := by
  simp [recordGet]

theorem computeWaitMsRest_single_retryAfter (now D : Int) (s : String) :
    computeWaitMsRest now [("retry-after", s)] D = cap D := by
  rw [computeWaitMsRest_eq]
  have h1 : parseResetToWaitMs now [("retry-after", s)] = none := by
    simp [parseResetToWaitMs, firstPresentInt, resetKeys, recordGet]
  simp only [h1]

/-!
## Lemmas: jitter
-/

theorem applyJitter_zero_pct {B : ℚ} (r : ℚ) (hB : 0 ≤ B) : applyJitter B 0 r = B := by
  unfold applyJitter
  norm_num
  exact hB

theorem applyJitter_zero_base (P r : ℚ) : applyJitter 0 P r = 0 := by
  unfold applyJitter
  norm_num

theorem applyJitter_bounds (B P r : ℚ) (hB : 0 ≤ B) (h0 : 0 ≤ r) (h1 : r ≤ 1) :
    max 0 (B - B * min (max P 0) 100 / 100) ≤ applyJitter B P r ∧
      applyJitter B P r ≤ B + B * min (max P 0) 100 / 100 := by
  have hform : min (max P 0) 100 = max 0 (min 100 P) := by
    rcases le_total P 0 with h | h <;> rcases le_total P 100 with h' | h' <;>
      simp [min_def, max_def] <;> split_ifs <;> linarith
  rw [hform]
  unfold applyJitter
  set pct := max 0 (min 100 P) with hpct
  have hpct0 : 0 ≤ pct := le_max_left _ _
  have hvar0 : 0 ≤ B * (pct / 100) := by positivity
  have hjlo : -(B * (pct / 100)) ≤ (r * 2 - 1) * (B * (pct / 100)) := by nlinarith
  have hjhi : (r * 2 - 1) * (B * (pct / 100)) ≤ B * (pct / 100) := by nlinarith
  constructor
  · have : B - B * pct / 100 ≤ B + (r * 2 - 1) * (B * (pct / 100)) := by
      rw [mul_div_assoc]
      linarith
    exact max_le_max (le_refl 0) this
  · apply max_le
    · rw [mul_div_assoc]
      linarith
    · rw [mul_div_assoc]
      linarith

/-!
## Claim theorems: wait-time resolver
-/

/-- C2 (amended): for a normalised `retry-after` that is an unsigned integer
string with value `≥ 1`, `computeWaitMs` returns `min(s·1000, MAX)`; for the
integer string `"0"` the parsed wait is `0`, which does *not* short-circuit:
with no other recognised header the result is the capped default, not `0`. -/
theorem computeWaitMs_retryAfter_seconds :
    (∀ (now : Int) (dp : String → Option Int) (raw : RawHeaders) (D : Int) (s : String),
      recordGet (normalizeHeaders raw) "retry-after" = some s →
      isDigitString s = true → 1 ≤ digitsToNat s.data →
      computeWaitMs now dp raw D =
        min ((digitsToNat s.data : Int) * 1000) MAX_THROTTLE_WAIT_MS) ∧
    (∀ (now : Int) (dp : String → Option Int) (D : Int),
      computeWaitMs now dp [("retry-after", HeaderValue.str "0")] D =
        min D MAX_THROTTLE_WAIT_MS) := by
  constructor
  · intro now dp raw D s hra hdig hpos
    have hne : s ≠ "" := by
      intro h
      rw [h] at hdig
      exact absurd hdig (by decide)
    have hcast : (0 : Int) < (digitsToNat s.data : Int) := by exact_mod_cast hpos
    have hm : 0 < (digitsToNat s.data : Int) * 1000 := by nlinarith
    exact computeWaitMs_retryAfter_pos now dp raw D hra hne
      (parseRetryAfterToMs_of_digits now dp hdig) hm
  · intro now dp D
    have hra : recordGet (normalizeHeaders [("retry-after", HeaderValue.str "0")])
        "retry-after" = some "0" := by decide
    have h0 : parseRetryAfterToMs now dp "0" = some 0 := by
      rw [parseRetryAfterToMs_of_digits now dp (by decide)]
      decide
    rw [computeWaitMs_retryAfter_zero now dp _ D hra (by decide) h0,
      show normalizeHeaders [("retry-after", HeaderValue.str "0")] = [("retry-after", "0")]
        from by decide,
      computeWaitMsRest_single_retryAfter]
    rfl

/-- Witness for `computeWaitMs_retryAfter_seconds`. -/
theorem computeWaitMs_retryAfter_seconds_witness :
    recordGet (normalizeHeaders [("retry-after", HeaderValue.str "3")]) "retry-after" = some "3" ∧
    isDigitString "3" = true ∧ 1 ≤ digitsToNat "3".data ∧
    computeWaitMs 0 (fun _ => none) [("retry-after", HeaderValue.str "3")] 10000 =
      min ((digitsToNat "3".data : Int) * 1000) MAX_THROTTLE_WAIT_MS ∧
    computeWaitMs 0 (fun _ => none) [("retry-after", HeaderValue.str "0")] 10000 =
      min 10000 MAX_THROTTLE_WAIT_MS :=
  ⟨by decide, by decide, by decide,
   computeWaitMs_retryAfter_seconds.1 0 (fun _ => none) _ 10000 "3"
     (by decide) (by decide) (by decide),
   computeWaitMs_retryAfter_seconds.2 0 (fun _ => none) 10000⟩

/-- C2 counterexample: `computeWaitMs({"retry-after": "0"}, 10000)` is
`10000`, not `min(0·1000, MAX) = 0`. -/
theorem computeWaitMs_retryAfter_zero_seconds_cex :
    computeWaitMs 0 (fun _ => none) [("retry-after", HeaderValue.str "0")] 10000 = 10000 ∧
    (10000 : Int) ≠ min ((0 : Int) * 1000) MAX_THROTTLE_WAIT_MS := by
  decide

/-- C3 (amended): a `retry-after` HTTP date at or before `now` parses to a
wait of `0`, but `computeWaitMs` does *not* return this `0`: the zero wait
fails the strictly-positive test and evaluation falls through to the
lower-priority rules (the capped default when nothing else is present). -/
theorem computeWaitMs_retryAfter_past_date (now : Int) (dp : String → Option Int)
    (v : String) (t D : Int) (hnotdig : isDigitString (jsTrim v) = false)
    (hdate : dp (jsTrim v) = some t) (hpast : t ≤ now) (hne : v ≠ "") :
    parseRetryAfterToMs now dp v = some 0 ∧
    computeWaitMs now dp [("retry-after", HeaderValue.str v)] D =
      min D MAX_THROTTLE_WAIT_MS := by
  have hparse : parseRetryAfterToMs now dp v = some 0 := by
    simp only [parseRetryAfterToMs, hnotdig, Bool.false_eq_true, if_false, hdate]
    rw [if_neg (by omega)]
  refine ⟨hparse, ?_⟩
  have hnorm : normalizeHeaders [("retry-after", HeaderValue.str v)] = [("retry-after", v)] := by
    rw [normalizeHeaders_single_str, toLowerStr_retry_after]
  have hra : recordGet (normalizeHeaders [("retry-after", HeaderValue.str v)])
      "retry-after" = some v := by
    rw [hnorm]
    exact recordGet_cons_self _ _ _
  rw [computeWaitMs_retryAfter_zero now dp _ D hra hne hparse, hnorm,
    computeWaitMsRest_single_retryAfter]
  rfl

/-- Witness for `computeWaitMs_retryAfter_past_date`. -/
theorem computeWaitMs_retryAfter_past_date_witness :
    isDigitString (jsTrim "Thu, 01 Jan 1970 00:00:02 GMT") = false ∧
    (fun s => if s = "Thu, 01 Jan 1970 00:00:02 GMT" then some (2000 : Int) else none)
      (jsTrim "Thu, 01 Jan 1970 00:00:02 GMT") = some 2000 ∧
    (2000 : Int) ≤ 10000 ∧ "Thu, 01 Jan 1970 00:00:02 GMT" ≠ "" ∧
    (parseRetryAfterToMs 10000
        (fun s => if s = "Thu, 01 Jan 1970 00:00:02 GMT" then some (2000 : Int) else none)
        "Thu, 01 Jan 1970 00:00:02 GMT" = some 0 ∧
      computeWaitMs 10000
        (fun s => if s = "Thu, 01 Jan 1970 00:00:02 GMT" then some (2000 : Int) else none)
        [("retry-after", HeaderValue.str "Thu, 01 Jan 1970 00:00:02 GMT")] 7000 =
        min 7000 MAX_THROTTLE_WAIT_MS) :=
  ⟨by decide, by decide, by decide, by decide,
   computeWaitMs_retryAfter_past_date 10000 _ "Thu, 01 Jan 1970 00:00:02 GMT" 2000 7000
     (by decide) (by decide) (by decide) (by decide)⟩

/-- C3 counterexample: with a `Date.parse` oracle placing the `retry-after`
date `2000 ms` after the epoch and `now = 10000` (so the date is in the
past), `computeWaitMs` returns the default `7000`, not `0`. -/
theorem computeWaitMs_retryAfter_past_date_cex :
    (fun s => if s = "Thu, 01 Jan 1970 00:00:02 GMT" then some (2000 : Int) else none)
      (jsTrim "Thu, 01 Jan 1970 00:00:02 GMT") = some 2000 ∧
    (2000 : Int) ≤ 10000 ∧
    computeWaitMs 10000
      (fun s => if s = "Thu, 01 Jan 1970 00:00:02 GMT" then some (2000 : Int) else none)
      [("retry-after", HeaderValue.str "Thu, 01 Jan 1970 00:00:02 GMT")] 7000 = 7000 ∧
    (7000 : Int) ≠ 0 := by
  decide

/-- C5 (amended): for every header map and every `defaultWaitMs ≥ 0` the
result of `computeWaitMs` lies in `[0, MAX_THROTTLE_WAIT_MS]`; the
non-negativity genuinely needs the default to be non-negative, since a
negative default is passed through (capped) by the fallback rule. -/
theorem computeWaitMs_range (now : Int) (dp : String → Option Int)
    (raw : RawHeaders) (D : Int) (hD : 0 ≤ D) :
    0 ≤ computeWaitMs now dp raw D ∧
      computeWaitMs now dp raw D ≤ MAX_THROTTLE_WAIT_MS := by
  rcases computeWaitMs_cases now dp raw D with h | ⟨w, hw, h⟩ <;> rw [h]
  · exact ⟨cap_nonneg hD, cap_le_max _⟩
  · exact ⟨cap_nonneg hw.le, cap_le_max _⟩

/-- Witness for `computeWaitMs_range`. -/
theorem computeWaitMs_range_witness :
    (0 : Int) ≤ 10000 ∧
    (0 ≤ computeWaitMs 0 (fun _ => none) [("Retry-After", HeaderValue.str "3")] 10000 ∧
      computeWaitMs 0 (fun _ => none) [("Retry-After", HeaderValue.str "3")] 10000 ≤
        MAX_THROTTLE_WAIT_MS) :=
  ⟨by decide, computeWaitMs_range 0 (fun _ => none) [("Retry-After", HeaderValue.str "3")]
    10000 (by decide)⟩

/-- C5 counterexample: a negative `defaultWaitMs` flows through uncapped
from below — `computeWaitMs({}, -1) = -1 < 0`. -/
theorem computeWaitMs_negative_default_cex :
    computeWaitMs 0 (fun _ => none) [] (-1) = -1 ∧ ((-1 : Int) < 0) := by
  decide

/-- C6 (amended): `retry-after` beats a simultaneously present reset header
whenever its parsed wait is strictly positive; when `retry-after` resolves
to a wait of `0` (integer `"0"` or a past date) it falls through and a
positive reset-derived wait decides the result instead. -/
theorem computeWaitMs_retryAfter_precedence :
    (∀ (now : Int) (dp : String → Option Int) (raw : RawHeaders) (D : Int)
      (ra : String) (m : Int),
      recordGet (normalizeHeaders raw) "retry-after" = some ra → ra ≠ "" →
      parseRetryAfterToMs now dp ra = some m → 0 < m →
      computeWaitMs now dp raw D = min m MAX_THROTTLE_WAIT_MS) ∧
    (∀ (dp : String → Option Int) (D : Int),
      computeWaitMs 0 dp
        [("retry-after", HeaderValue.str "0"), ("x-ratelimit-reset", HeaderValue.str "5")]
        D = 5000) := by
  constructor
  · intro now dp raw D ra m hra hne hparse hm
    exact computeWaitMs_retryAfter_pos now dp raw D hra hne hparse hm
  · intro dp D
    have hra : recordGet (normalizeHeaders
        [("retry-after", HeaderValue.str "0"), ("x-ratelimit-reset", HeaderValue.str "5")])
        "retry-after" = some "0" := by decide
    have h0 : parseRetryAfterToMs 0 dp "0" = some 0 := by
      rw [parseRetryAfterToMs_of_digits 0 dp (by decide)]
      decide
    rw [computeWaitMs_retryAfter_zero 0 dp _ D hra (by decide) h0,
      computeWaitMsRest_eq,
      show parseResetToWaitMs 0 (normalizeHeaders
        [("retry-after", HeaderValue.str "0"), ("x-ratelimit-reset", HeaderValue.str "5")]) =
        some 5000 from by decide]
    norm_num
    decide

/-- Witness for `computeWaitMs_retryAfter_precedence`. -/
theorem computeWaitMs_retryAfter_precedence_witness :
    recordGet (normalizeHeaders [("Retry-After", HeaderValue.str "3"),
        ("x-ratelimit-reset", HeaderValue.str "60")]) "retry-after" = some "3" ∧
    "3" ≠ "" ∧
    parseRetryAfterToMs 0 (fun _ => none) "3" = some 3000 ∧ ((0 : Int) < 3000) ∧
    computeWaitMs 0 (fun _ => none)
      [("Retry-After", HeaderValue.str "3"), ("x-ratelimit-reset", HeaderValue.str "60")]
      10000 = min 3000 MAX_THROTTLE_WAIT_MS ∧
    computeWaitMs 0 (fun _ => none)
      [("retry-after", HeaderValue.str "0"), ("x-ratelimit-reset", HeaderValue.str "5")]
      10000 = 5000 :=
  ⟨by decide, by decide, by decide, by decide,
   computeWaitMs_retryAfter_precedence.1 0 (fun _ => none) _ 10000 "3" 3000
     (by decide) (by decide) (by decide) (by decide),
   computeWaitMs_retryAfter_precedence.2 (fun _ => none) 10000⟩

/-- C6 counterexample: `retry-after: "0"` is a valid integer-seconds
directive, yet with a simultaneously present reset header the reset-derived
`5000` wins, not the retry-after-derived `0`. -/
theorem computeWaitMs_retryAfter_zero_loses_cex :
    parseRetryAfterToMs 0 (fun _ => none) "0" = some 0 ∧
    computeWaitMs 0 (fun _ => none)
      [("retry-after", HeaderValue.str "0"), ("x-ratelimit-reset", HeaderValue.str "5")]
      99 = 5000 ∧
    (5000 : Int) ≠ 0 := by
  decide

/-- C7 (amended): with no `retry-after` directive and an exhausted
remaining-quota header, the result is the capped positive reset-derived
wait if one exists and otherwise the *capped* default — in particular
`computeWaitMs({"x-ratelimit-remaining": "0"}, D)` with no reset header is
`min(D, MAX_THROTTLE_WAIT_MS)` (exactly `D` only when `D ≤ MAX`). -/
theorem computeWaitMs_remaining_exhausted :
    (∀ (now : Int) (dp : String → Option Int) (raw : RawHeaders) (D : Int) (r : Int),
      recordGet (normalizeHeaders raw) "retry-after" = none →
      firstPresentInt (normalizeHeaders raw) remainingKeys = some r → r ≤ 0 →
      computeWaitMs now dp raw D =
        match parseResetToWaitMs now (normalizeHeaders raw) with
        | some w => if 0 < w then min w MAX_THROTTLE_WAIT_MS else min D MAX_THROTTLE_WAIT_MS
        | none => min D MAX_THROTTLE_WAIT_MS) ∧
    (∀ (now : Int) (dp : String → Option Int) (D : Int),
      computeWaitMs now dp [("x-ratelimit-remaining", HeaderValue.str "0")] D =
        min D MAX_THROTTLE_WAIT_MS) := by
  constructor
  · intro now dp raw D r hra hrem hr
    rw [computeWaitMs_no_retryAfter now dp raw D hra,
      computeWaitMsRest_remaining_exhausted now _ D hrem hr]
    simp only [cap]
  · intro now dp D
    rw [computeWaitMs_no_retryAfter now dp _ D (by decide),
      computeWaitMsRest_eq,
      show parseResetToWaitMs now (normalizeHeaders
        [("x-ratelimit-remaining", HeaderValue.str "0")]) = none from ?_]
    · rfl
    · rw [show normalizeHeaders [("x-ratelimit-remaining", HeaderValue.str "0")] =
        [("x-ratelimit-remaining", "0")] from by decide]
      simp only [parseResetToWaitMs,
        show firstPresentInt [("x-ratelimit-remaining", "0")] resetKeys = none from by decide]

/-- Witness for `computeWaitMs_remaining_exhausted`. -/
theorem computeWaitMs_remaining_exhausted_witness :
    recordGet (normalizeHeaders [("x-ratelimit-remaining", HeaderValue.str "0")])
      "retry-after" = none ∧
    firstPresentInt (normalizeHeaders [("x-ratelimit-remaining", HeaderValue.str "0")])
      remainingKeys = some 0 ∧
    ((0 : Int) ≤ 0) ∧
    (computeWaitMs 7 (fun _ => none) [("x-ratelimit-remaining", HeaderValue.str "0")] 10000 =
      match parseResetToWaitMs 7
          (normalizeHeaders [("x-ratelimit-remaining", HeaderValue.str "0")]) with
        | some w => if 0 < w then min w MAX_THROTTLE_WAIT_MS else min 10000 MAX_THROTTLE_WAIT_MS
        | none => min (10000 : Int) MAX_THROTTLE_WAIT_MS) ∧
    computeWaitMs 7 (fun _ => none) [("x-ratelimit-remaining", HeaderValue.str "0")] 10000 =
      min 10000 MAX_THROTTLE_WAIT_MS :=
  ⟨by decide, by decide, by decide,
   computeWaitMs_remaining_exhausted.1 7 (fun _ => none) _ 10000 0
     (by decide) (by decide) (by decide),
   computeWaitMs_remaining_exhausted.2 7 (fun _ => none) 10000⟩

/-- C7 counterexample: the "returns exactly `D`" reading fails above the
cap — `computeWaitMs({"x-ratelimit-remaining": "0"}, 300001) = 300000`. -/
theorem computeWaitMs_remaining_exhausted_cap_cex :
    computeWaitMs 0 (fun _ => none) [("x-ratelimit-remaining", HeaderValue.str "0")]
      300001 = 300000 ∧
    (300000 : Int) ≠ 300001 := by
  decide

/-- C10: the shared integer lookup accepts any truthy value whose string
parses under `parseInt` base 10 (so `"0garbage"` reads as `0` and triggers
the remaining-quota-exhausted rule), and skips a present value only when it
is empty or `parseInt` yields no integer, falling through to the next
header variant. -/
theorem firstPresentInt_leading_integer :
    parseIntBase10 "0garbage" = some 0 ∧
    firstPresentInt [("x-ratelimit-remaining", "0garbage")] remainingKeys = some 0 ∧
    (∀ (now : Int) (dp : String → Option Int) (D : Int),
      computeWaitMs now dp [("x-ratelimit-remaining", HeaderValue.str "0garbage")] D =
        min D MAX_THROTTLE_WAIT_MS) ∧
    (∀ (h : Record) (k : String) (keys : List String) (v : String) (n : Int),
      recordGet h k = some v → v ≠ "" → parseIntBase10 v = some n →
      firstPresentInt h (k :: keys) = some n) ∧
    (∀ (h : Record) (k : String) (keys : List String) (v : String),
      recordGet h k = some v → parseIntBase10 v = none →
      firstPresentInt h (k :: keys) = firstPresentInt h keys) ∧
    (∀ (h : Record) (k : String) (keys : List String),
      recordGet h k = some "" →
      firstPresentInt h (k :: keys) = firstPresentInt h keys) := by
  refine ⟨by decide, by decide, ?_, ?_, ?_, ?_⟩
  · intro now dp D
    rw [computeWaitMs_no_retryAfter now dp _ D (by decide),
      computeWaitMsRest_eq,
      show parseResetToWaitMs now (normalizeHeaders
        [("x-ratelimit-remaining", HeaderValue.str "0garbage")]) = none from ?_]
    · rfl
    · rw [show normalizeHeaders [("x-ratelimit-remaining", HeaderValue.str "0garbage")] =
        [("x-ratelimit-remaining", "0garbage")] from by decide]
      simp only [parseResetToWaitMs,
        show firstPresentInt [("x-ratelimit-remaining", "0garbage")] resetKeys = none
          from by decide]
  · intro h k keys v n hget hne hparse
    simp only [firstPresentInt, hget]
    rw [if_neg hne]
    simp only [hparse]
  · intro h k keys v hget hparse
    simp only [firstPresentInt, hget]
    by_cases hne : v = ""
    · rw [if_pos hne]
    · rw [if_neg hne]
      simp only [hparse]
  · intro h k keys hget
    simp only [firstPresentInt, hget, if_true]

/-- Witness for `firstPresentInt_leading_integer`. -/
theorem firstPresentInt_leading_integer_witness :
    recordGet [("a", "garbage"), ("b", "7")] "a" = some "garbage" ∧
    parseIntBase10 "garbage" = none ∧
    firstPresentInt [("a", "garbage"), ("b", "7")] ["a", "b"] =
      firstPresentInt [("a", "garbage"), ("b", "7")] ["b"] ∧
    computeWaitMs 0 (fun _ => none) [("x-ratelimit-remaining", HeaderValue.str "0garbage")]
      123 = min 123 MAX_THROTTLE_WAIT_MS :=
  ⟨by decide, by decide,
   (firstPresentInt_leading_integer.2.2.2.2.1) [("a", "garbage"), ("b", "7")] "a" ["b"]
     "garbage" (by decide) (by decide),
   (firstPresentInt_leading_integer.2.2.1) 0 (fun _ => none) 123⟩

/-!
## Claim theorems: jitter and normalisation
-/

/-- C8: for `baseMs ≥ 0` and a random draw in `[0, 1]`, `applyJitter`
returns exactly the base for zero jitter, exactly `0` for a zero base, and
otherwise stays within the variance band around the base computed from the
jitter percentage clamped to `[0, 100]`, never going negative. -/
theorem applyJitter_contract (B P r : ℚ) (hB : 0 ≤ B) (h0 : 0 ≤ r) (h1 : r ≤ 1) :
    applyJitter B 0 r = B ∧ applyJitter 0 P r = 0 ∧
    max 0 (B - B * min (max P 0) 100 / 100) ≤ applyJitter B P r ∧
    applyJitter B P r ≤ B + B * min (max P 0) 100 / 100 :=
  ⟨applyJitter_zero_pct r hB, applyJitter_zero_base P r,
   (applyJitter_bounds B P r hB h0 h1).1, (applyJitter_bounds B P r hB h0 h1).2⟩

/-- Witness for `applyJitter_contract`. -/
theorem applyJitter_contract_witness :
    (0 : ℚ) ≤ 10000 ∧ (0 : ℚ) ≤ 1 / 4 ∧ (1 : ℚ) / 4 ≤ 1 ∧
    (applyJitter 10000 0 (1 / 4) = 10000 ∧ applyJitter 0 25 (1 / 4) = 0 ∧
      max 0 (10000 - 10000 * min (max 25 0) 100 / 100) ≤ applyJitter 10000 25 (1 / 4) ∧
      applyJitter 10000 25 (1 / 4) ≤ 10000 + 10000 * min (max 25 0) 100 / 100) :=
  ⟨by norm_num, by norm_num, by norm_num,
   applyJitter_contract 10000 25 (1 / 4) (by norm_num) (by norm_num) (by norm_num)⟩

/-- C9: `normalizeHeaders` lower-cases every key, keeps the first element
of repeated (array) headers, drops `null` entries, and is idempotent on its
own output. -/
theorem normalizeHeaders_contract :
    (∀ raw : RawHeaders,
      normalizeHeaders (injStr (normalizeHeaders raw)) = normalizeHeaders raw) ∧
    (∀ (raw : RawHeaders) (p : String × String),
      p ∈ normalizeHeaders raw → toLowerStr p.1 = p.1) ∧
    recordGet (normalizeHeaders [("Retry-After", HeaderValue.str "3")]) "retry-after" =
      some "3" ∧
    recordGet (normalizeHeaders [("retry-after", HeaderValue.arr ["5", "10"])])
      "retry-after" = some "5" ∧
    normalizeHeaders [("retry-after", HeaderValue.null)] = [] :=
  ⟨normalizeHeaders_idem,
   fun raw p hp => (goodRec_normalizeHeaders raw).2 p hp,
   by decide, by decide, by decide⟩

/-- Witness for `normalizeHeaders_contract`. -/
theorem normalizeHeaders_contract_witness :
    (("retry-after", "3") ∈ normalizeHeaders [("Retry-After", HeaderValue.str "3")]) ∧
    toLowerStr ("retry-after", "3").1 = ("retry-after", "3").1 ∧
    normalizeHeaders (injStr (normalizeHeaders [("Retry-After", HeaderValue.str "3")])) =
      normalizeHeaders [("Retry-After", HeaderValue.str "3")] :=
  ⟨by decide,
   normalizeHeaders_contract.2.1 [("Retry-After", HeaderValue.str "3")]
     ("retry-after", "3") (by decide),
   normalizeHeaders_contract.1 [("Retry-After", HeaderValue.str "3")]⟩

/-!
## Claim theorems: retry drivers
-/

/-- C1 (amended): with `maxRetries = 3` and an executor whose every response
is throttle-classified, the fallback driver (`fallbackExecute`) invokes the
executor exactly 3 times, sleeps only after the first two classified
responses (never after the final one), and fails with the max-retries error
carrying the last observed status and the limit 3; the wrapper driver
(`throttledCall`), whose loop runs `attempt = 0 .. maxRetries` inclusive,
invokes the executor `maxRetries + 1 = 4` times (sleeping after the first
three) before raising the same error. -/
theorem retry_exhaustion_call_counts (codes : List String) (cof : Bool)
    (resp : Nat → Response) (now : Int) (dp : String → Option Int) (rand : Nat → ℚ)
    (d : Int) (jp : ℚ) (wf wi : Bool)
    (hthr : ∀ n, toString (resp n).statusCode ∈ codes) :
    (fallbackRun codes now dp rand d jp 3 true cof (fun n => ExecResult.ok (resp n))).1 =
        FallbackOutcome.throttleExhausted (resp 2).statusCode 3 ∧
    (fallbackRun codes now dp rand d jp 3 true cof (fun n => ExecResult.ok (resp n))).2.1 = 3 ∧
    (fallbackRun codes now dp rand d jp 3 true cof
        (fun n => ExecResult.ok (resp n))).2.2.length = 2 ∧
    (throttledCallRun codes now dp rand d jp 3 wf wi (fun n => ExecResult.ok (resp n))).1 =
        WrapOutcome.throttleExhausted (resp 3).statusCode 3 ∧
    (throttledCallRun codes now dp rand d jp 3 wf wi (fun n => ExecResult.ok (resp n))).2.1 = 4 ∧
    (throttledCallRun codes now dp rand d jp 3 wf wi
        (fun n => ExecResult.ok (resp n))).2.2.length = 3 := by
  norm_num [fallbackRun, fallbackLoop, throttledCallRun, throttledCallLoop,
    hthr 0, hthr 1, hthr 2, hthr 3]

/-- Witness for `retry_exhaustion_call_counts`. -/
theorem retry_exhaustion_call_counts_witness :
    (∀ n : Nat,
      toString ((fun _ : Nat => (⟨429, [], ""⟩ : Response)) n).statusCode ∈ ["429"]) ∧
    ((fallbackRun ["429"] 0 (fun _ => none) (fun _ => 1 / 2) 5000 25 3 true false
        (fun n => ExecResult.ok ((fun _ : Nat => (⟨429, [], ""⟩ : Response)) n))).1 =
        FallbackOutcome.throttleExhausted 429 3 ∧
      (fallbackRun ["429"] 0 (fun _ => none) (fun _ => 1 / 2) 5000 25 3 true false
        (fun n => ExecResult.ok ((fun _ : Nat => (⟨429, [], ""⟩ : Response)) n))).2.1 = 3 ∧
      (fallbackRun ["429"] 0 (fun _ => none) (fun _ => 1 / 2) 5000 25 3 true false
        (fun n => ExecResult.ok ((fun _ : Nat => (⟨429, [], ""⟩ : Response)) n))).2.2.length = 2 ∧
      (throttledCallRun ["429"] 0 (fun _ => none) (fun _ => 1 / 2) 5000 25 3 true true
        (fun n => ExecResult.ok ((fun _ : Nat => (⟨429, [], ""⟩ : Response)) n))).1 =
        WrapOutcome.throttleExhausted 429 3 ∧
      (throttledCallRun ["429"] 0 (fun _ => none) (fun _ => 1 / 2) 5000 25 3 true true
        (fun n => ExecResult.ok ((fun _ : Nat => (⟨429, [], ""⟩ : Response)) n))).2.1 = 4 ∧
      (throttledCallRun ["429"] 0 (fun _ => none) (fun _ => 1 / 2) 5000 25 3 true true
        (fun n => ExecResult.ok ((fun _ : Nat => (⟨429, [], ""⟩ : Response)) n))).2.2.length
        = 3) :=
  ⟨fun _ => (by decide : toString (429 : Int) ∈ ["429"]),
   retry_exhaustion_call_counts ["429"] false (fun _ => ⟨429, [], ""⟩) 0 (fun _ => none)
     (fun _ => 1 / 2) 5000 25 true true
     (fun _ => (by decide : toString (429 : Int) ∈ ["429"]))⟩

/-- C1 counterexample: on the wrapper driver an always-429 executor with
`maxRetries = 3` is invoked 4 times, not 3, before the max-retries error. -/
theorem retry_exhaustion_wrapper_four_calls_cex :
    (throttledCallRun ["429"] 0 (fun _ => none) (fun _ => 1 / 2) 5000 25 3 true true
        (fun _ => ExecResult.ok ⟨429, [], ""⟩)).1 =
      WrapOutcome.throttleExhausted 429 3 ∧
    (throttledCallRun ["429"] 0 (fun _ => none) (fun _ => 1 / 2) 5000 25 3 true true
        (fun _ => ExecResult.ok ⟨429, [], ""⟩)).2.1 = 4 ∧
    (4 : Nat) ≠ 3 := by
  decide

/-- C4 (amended): on a first response with a non-throttle status `≥ 400`
neither driver sleeps; the fallback driver invokes the executor exactly
once and surfaces the non-throttle HTTP error (an error item when the
caller continues on fail); the wrapper driver with the caller not having
requested `ignoreHttpStatusErrors` re-issues the request with the original
options — a second executor invocation whose outcome is returned raw — and
with `ignoreHttpStatusErrors` returns the first response after one call. -/
theorem non_throttle_call_counts (codes : List String) (cof wf : Bool)
    (resp : Nat → Response) (now : Int) (dp : String → Option Int) (rand : Nat → ℚ)
    (d : Int) (jp : ℚ) (maxTries maxRetries : Nat)
    (hnot : toString (resp 0).statusCode ∉ codes) (h400 : 400 ≤ (resp 0).statusCode) :
    fallbackRun codes now dp rand d jp maxTries true cof (fun n => ExecResult.ok (resp n)) =
      ((if cof then FallbackOutcome.errorItem (resp 0).statusCode
        else FallbackOutcome.httpError (resp 0).statusCode), 1, []) ∧
    throttledCallRun codes now dp rand d jp maxRetries wf false
        (fun n => ExecResult.ok (resp n)) =
      (WrapOutcome.passthrough (ExecResult.ok (resp 1)), 2, []) ∧
    throttledCallRun codes now dp rand d jp maxRetries wf true
        (fun n => ExecResult.ok (resp n)) =
      ((if wf then WrapOutcome.fullResponse (resp 0) else WrapOutcome.bodyOnly (resp 0).body),
        1, []) := by
  cases cof <;> cases wf <;>
    norm_num [fallbackRun, fallbackLoop, throttledCallRun, throttledCallLoop, hnot, h400]

/-- Witness for `non_throttle_call_counts`. -/
theorem non_throttle_call_counts_witness :
    (toString ((fun _ : Nat => (⟨500, [], "b"⟩ : Response)) 0).statusCode ∉ ["429"]) ∧
    (400 ≤ ((fun _ : Nat => (⟨500, [], "b"⟩ : Response)) 0).statusCode) ∧
    (fallbackRun ["429"] 0 (fun _ => none) (fun _ => 1 / 2) 5000 25 5 true false
        (fun n => ExecResult.ok ((fun _ : Nat => (⟨500, [], "b"⟩ : Response)) n)) =
      ((if false then FallbackOutcome.errorItem 500 else FallbackOutcome.httpError 500),
        1, []) ∧
      throttledCallRun ["429"] 0 (fun _ => none) (fun _ => 1 / 2) 5000 25 5 false false
        (fun n => ExecResult.ok ((fun _ : Nat => (⟨500, [], "b"⟩ : Response)) n)) =
        (WrapOutcome.passthrough (ExecResult.ok ⟨500, [], "b"⟩), 2, []) ∧
      throttledCallRun ["429"] 0 (fun _ => none) (fun _ => 1 / 2) 5000 25 5 false true
        (fun n => ExecResult.ok ((fun _ : Nat => (⟨500, [], "b"⟩ : Response)) n)) =
        ((if false then WrapOutcome.fullResponse ⟨500, [], "b"⟩
          else WrapOutcome.bodyOnly "b"), 1, [])) :=
  ⟨by decide, by decide,
   non_throttle_call_counts ["429"] false false (fun _ => ⟨500, [], "b"⟩) 0 (fun _ => none)
     (fun _ => 1 / 2) 5000 25 5 5 (by decide) (by decide)⟩

/-- C4 counterexample: the wrapper driver invokes the executor twice, not
once, on a non-throttle 500 when the caller has not set
`ignoreHttpStatusErrors`. -/
theorem non_throttle_wrapper_two_calls_cex :
    (throttledCallRun ["429"] 0 (fun _ => none) (fun _ => 1 / 2) 5000 25 5 false false
        (fun _ => ExecResult.ok ⟨500, [], "b"⟩)).2.1 = 2 ∧
    (2 : Nat) ≠ 1 := by
  decide
